import Mathlib

/-!
Verification of the `rns` HTTP server core: a shallow embedding of the
parsing, routing and serialization functions of `src/web`, with theorems
settling the specification's claims about them.

Rust strings are modelled as `List Char`; `Vec<u8>` bodies are modelled as
`List Char` as well (all inputs of interest are ASCII).  Fallible Rust
functions returning `WebResult<T> = Result<T, ResponseCode>` are modelled
as `Except ResponseCode T`.
-/

deriving instance DecidableEq for Except

namespace Rns

/-- Rust `String` / `&str`, modelled as a list of characters. -/
abbrev Str := List Char

/-- ASCII whitespace recognised by Rust's `char::is_whitespace` /
`str::trim` (the Unicode-only whitespace code points never occur in the
inputs of interest). -/
def isWsChar (c : Char) : Bool :=
  c = ' ' || c = '\t' || c = '\n' || c = '\r' || c.val = 0x0B || c.val = 0x0C

/-- Rust `str::trim`: strip leading and trailing whitespace. -/
def trimStr (s : Str) : Str :=
  ((s.dropWhile isWsChar).reverse.dropWhile isWsChar).reverse

/-- Rust `str::split(sep)` collected into a vector: splits at every
occurrence of `sep`, keeping empty parts, so the result is never empty
(`"".split(sep)` yields `[""]`). -/
def splitOn (sep : Char) : Str → List Str
  | [] => [[]]
  | c :: rest =>
    if c = sep then [] :: splitOn sep rest
    else
      match splitOn sep rest with
      | [] => [[c]]
      | p :: ps => (c :: p) :: ps

/-- Helper for `splitWs`: accumulates the current (reversed) token. -/
def splitWsAux : Str → Str → List Str
  | [], acc => if acc.isEmpty then [] else [acc.reverse]
  | c :: rest, acc =>
    if isWsChar c then
      if acc.isEmpty then splitWsAux rest []
      else acc.reverse :: splitWsAux rest []
    else splitWsAux rest (c :: acc)

/-- Rust `str::split_whitespace` collected into a vector: whitespace-
separated tokens, empty tokens dropped. -/
def splitWs (s : Str) : List Str := splitWsAux s []

/-- Model of `ResponseCode` from `src/web/response/mod.rs`.  The source stores the
reason either as a `&'static str` or a `String` (an allocation detail);
both render identically, so one `reason` field suffices. -/
structure ResponseCode where
  code : Nat
  reason : Str
deriving DecidableEq

def ResponseCode.get_200 : ResponseCode := ⟨200, "OK".data⟩

def ResponseCode.get_400 : ResponseCode := ⟨400, "Bad Request".data⟩

def ResponseCode.get_404 : ResponseCode := ⟨404, "Not Found".data⟩

def ResponseCode.get_405 : ResponseCode := ⟨405, "Method Not Allowed".data⟩

def ResponseCode.get_500 : ResponseCode := ⟨500, "Internal Server Error".data⟩

/-- Model of `Header` from `src/web/response/mod.rs`. -/
structure Header where
  name : Str
  value : Str
deriving DecidableEq

/-- Model of `Header::build`: `header_str.split(":")`; fewer than 2 parts is a 400,
otherwise `name = parts[0].trim()`, `value = parts[1].trim()` (the
source's `parts.len() < 2` guard is the catch-all arm here: `splitOn`
never returns `[]`). -/
def Header.build (header_str : Str) : Except ResponseCode Header :=
  match splitOn ':' header_str with
  | p0 :: p1 :: _ => .ok ⟨trimStr p0, trimStr p1⟩
  | _ => .error ResponseCode.get_400

/-- Model of `Header::to_http_str`: `format!("{}: {}", name, value)`. -/
def Header.to_http_str (h : Header) : Str :=
  h.name ++ ':' :: ' ' :: h.value

/-- The text strictly before the first occurrence of `sep` (the whole
string when `sep` does not occur). -/
def beforeChar (sep : Char) (s : Str) : Str :=
  s.takeWhile (fun c => c != sep)

/-- The text strictly after the first occurrence of `sep`. -/
def afterChar (sep : Char) (s : Str) : Str :=
  (s.dropWhile (fun c => c != sep)).drop 1

theorem splitOn_eq (sep : Char) (s : Str) :
    splitOn sep s =
      beforeChar sep s ::
        (if sep ∈ s then splitOn sep (afterChar sep s) else []) := by
  induction s with
  | nil => simp [splitOn, beforeChar, afterChar]
  | cons c rest ih =>
    by_cases hc : c = sep
    · subst hc
      simp [splitOn, beforeChar, afterChar]
    · have h1 : splitOn sep (c :: rest) =
          match splitOn sep rest with
          | [] => [[c]]
          | p :: ps => (c :: p) :: ps := by
        simp [splitOn, hc]
      rw [h1, ih]
      by_cases hm : sep ∈ rest
      · rw [if_pos hm, if_pos (List.mem_cons_of_mem _ hm)]
        simp [beforeChar, afterChar, hc]
      · have hm' : sep ∉ c :: rest := by
          intro h
          rcases List.mem_cons.mp h with h' | h'
          · exact hc h'.symm
          · exact hm h'
        rw [if_neg hm, if_neg hm']
        simp [beforeChar, afterChar, hc]

/-- Model of `Header::build`, re-expressed the way a specification would put it:
a line with no colon is a 400; otherwise the name is the trimmed text
before the first colon and the value is the trimmed text between the
first and the second colon (to end of line when there is no second
colon) — text after a second colon is discarded. -/
theorem header_build_eq (s : Str) :
    Header.build s =
      if ':' ∈ s then
        .ok ⟨trimStr (beforeChar ':' s),
             trimStr (beforeChar ':' (afterChar ':' s))⟩
      else .error ResponseCode.get_400 := by
  unfold Header.build
  rw [splitOn_eq ':' s]
  by_cases h : ':' ∈ s
  · rw [if_pos h, if_pos h, splitOn_eq ':' (afterChar ':' s)]
  · rw [if_neg h, if_neg h]

/-- Model of `Versions` from `src/web/response/mod.rs`. -/
inductive Versions
  | Http1_1
  | Http2
  | Http3
deriving DecidableEq

/-- The `Display` implementation for `Versions`: only `Http1_1` renders;
every other variant returns `fmt::Error`, modelled as `none`. -/
def Versions.fmt : Versions → Option Str
  | .Http1_1 => some "HTTP/1.1".data
  | _ => none

/-- Model of `StatusRequest` from `src/web/request/mod.rs`. -/
structure StatusRequest where
  method : Str
  uri : Str
  version : Versions
deriving DecidableEq

/-- Model of `StatusRequest::build`: `line_str.split_whitespace()`; fewer than 3
tokens is a 400 (the catch-all arm below), a third token other than
`HTTP/1.1` is a 400, otherwise method and uri are the first two tokens
(tokens beyond the third are ignored by the wildcard pattern). -/
def StatusRequest.build (line_str : Str) : Except ResponseCode StatusRequest :=
  match splitWs line_str with
  | p0 :: p1 :: p2 :: _ =>
    if p2 = "HTTP/1.1".data then
      .ok ⟨p0, p1, .Http1_1⟩
    else
      .error ResponseCode.get_400
  | _ => .error ResponseCode.get_400

end Rns

namespace Rns

/-- C1: the claim as stated — name kept verbatim (untrimmed) and value
running to the end of the line past further colons — is false: on the
line `" N : v : w"` the code trims the name to `"N"` and cuts the value
at the second colon, yielding `"v"` rather than `"v : w"`. -/
theorem C1_header_build_counterexample :
    Header.build " N : v : w".data = .ok ⟨"N".data, "v".data⟩ ∧
    Header.build " N : v : w".data ≠ .ok ⟨" N ".data, "v : w".data⟩ := by
  decide

/-- C1 (amended): a header line with no colon fails with 400; otherwise
parsing succeeds with name equal to the text before the first colon with
surrounding whitespace trimmed, and value equal to the text between the
first and the second colon (to end of line when there is only one colon)
with surrounding whitespace trimmed; text after a second colon is
discarded. -/
theorem C1_header_build_amended (s : Str) :
    Header.build s =
      if ':' ∈ s then
        .ok ⟨trimStr (beforeChar ':' s),
             trimStr (beforeChar ':' (afterChar ':' s))⟩
      else .error ResponseCode.get_400 :=
  header_build_eq s

/-- C5: status-line parsing splits the line on whitespace; fewer than 3
tokens fails with 400; a third token other than `HTTP/1.1` fails with
400; otherwise parsing succeeds with method the first token, uri the
second token and version HTTP/1.1, tokens beyond the third ignored. -/
theorem C5_status_request_build (line : Str) :
    ((splitWs line).length < 3 →
      StatusRequest.build line = .error ResponseCode.get_400) ∧
    (∀ m u v rest, splitWs line = m :: u :: v :: rest →
      (v ≠ "HTTP/1.1".data →
        StatusRequest.build line = .error ResponseCode.get_400) ∧
      (v = "HTTP/1.1".data →
        StatusRequest.build line = .ok ⟨m, u, Versions.Http1_1⟩)) := by
  constructor
  · intro hlen
    unfold StatusRequest.build
    match hs : splitWs line with
    | [] => rfl
    | [_] => rfl
    | [_, _] => rfl
    | _ :: _ :: _ :: _ =>
      rw [hs] at hlen
      simp at hlen
      omega
  · intro m u v rest hs
    constructor
    · intro hv
      unfold StatusRequest.build
      rw [hs]
      simp [hv]
    · intro hv
      unfold StatusRequest.build
      rw [hs]
      simp [hv]

/-- Witness for C5 at the status line `GET /test HTTP/1.1`. -/
theorem C5_status_request_build_witness :
    StatusRequest.build "GET /test HTTP/1.1".data =
      .ok ⟨"GET".data, "/test".data, Versions.Http1_1⟩ :=
  ((C5_status_request_build "GET /test HTTP/1.1".data).2
    "GET".data "/test".data "HTTP/1.1".data [] (by decide)).2 rfl

/-- Model of `HashMap::get`, on the association-list model of a hash map.  Keyed
lookups are the only observations the code makes, so an association list
whose keys are unique is a faithful model. -/
def alistGet {α : Type} (k : Str) : List (Str × α) → Option α
  | [] => none
  | (k', v) :: rest => if k' = k then some v else alistGet k rest

/-- Model of `HashMap::insert`: overwrites the existing entry for `k` (last write
wins) or appends a fresh one. -/
def alistInsert {α : Type} (k : Str) (v : α) : List (Str × α) → List (Str × α)
  | [] => [(k, v)]
  | (k', v') :: rest =>
    if k' = k then (k, v) :: rest else (k', v') :: alistInsert k v rest

/-- Model of `RouteMap` from `src/web/mod.rs`: `HashMap<Uri, HashMap<Method,
Action>>`.  The action type is abstract, as the code never inspects the
stored `Arc<dyn Fn(Request)>` beyond cloning it. -/
structure RouteMap (α : Type) where
  map : List (Str × List (Str × α))
deriving DecidableEq

/-- Model of `RouteMap::get_method_map` followed by a mutation `f` of the returned
`&mut` method map: the source first inserts an empty method map when the
uri key is absent, so after the call the uri key always exists. -/
def RouteMap.with_method_map {α : Type} (rm : RouteMap α) (uri : Str)
    (f : List (Str × α) → List (Str × α)) : RouteMap α :=
  ⟨alistInsert uri (f ((alistGet uri rm.map).getD [])) rm.map⟩

/-- Model of `RouteMap::insert_route`. -/
def RouteMap.insert_route {α : Type} (rm : RouteMap α) (uri method : Str)
    (closure : α) : RouteMap α :=
  rm.with_method_map uri (alistInsert method closure)

/-- Model of `RouteMap::insert_route_methods`: drains `methods`, inserting the
same closure once per method. -/
def RouteMap.insert_route_methods {α : Type} (rm : RouteMap α) (uri : Str)
    (methods : List Str) (closure : α) : RouteMap α :=
  rm.with_method_map uri
    (fun mm => methods.foldl (fun m mth => alistInsert mth closure m) mm)

/-- Model of `RouteMap::get_action`. -/
def RouteMap.get_action {α : Type} (rm : RouteMap α) (uri method : Str) :
    Except ResponseCode α :=
  match alistGet uri rm.map with
  | some method_map =>
    match alistGet method method_map with
    | some action => .ok action
    | none => .error ResponseCode.get_405
  | none => .error ResponseCode.get_404

/-- The registered action for an exact (uri, method) pair, when any. -/
def RouteMap.lookupPair {α : Type} (rm : RouteMap α) (uri method : Str) :
    Option α :=
  (alistGet uri rm.map).bind (alistGet method)

/-- C3: route resolution is a three-outcome result — the registered
handler when the exact (uri, method) pair is registered; a 405 when the
uri is registered under at least one method but this (uri, method) pair
is not; a 404 when the uri is not registered at all. -/
theorem C3_get_action {α : Type} (rm : RouteMap α) (uri method : Str) :
    (∀ a, rm.lookupPair uri method = some a →
      rm.get_action uri method = .ok a) ∧
    ((∃ mm, alistGet uri rm.map = some mm ∧ mm ≠ []) →
      rm.lookupPair uri method = none →
      rm.get_action uri method = .error ResponseCode.get_405) ∧
    (alistGet uri rm.map = none →
      rm.get_action uri method = .error ResponseCode.get_404) := by
  refine ⟨?_, ?_, ?_⟩
  · intro a ha
    unfold RouteMap.lookupPair at ha
    unfold RouteMap.get_action
    match hu : alistGet uri rm.map with
    | none => rw [hu] at ha; cases ha
    | some mm =>
      rw [hu] at ha
      have ha' : alistGet method mm = some a := ha
      simp [ha']
  · rintro ⟨mm, hu, -⟩ hnone
    unfold RouteMap.lookupPair at hnone
    rw [hu] at hnone
    have hnone' : alistGet method mm = none := hnone
    unfold RouteMap.get_action
    rw [hu]
    simp [hnone']
  · intro hu
    unfold RouteMap.get_action
    rw [hu]

/-- Witness for C3 on the map {"/test-fn" ↦ {"GET" ↦ 7}}: the exact pair
resolves to the handler, a wrong method is a 405, an unknown uri is a
404. -/
theorem C3_get_action_witness :
    (RouteMap.mk [("/test-fn".data, [("GET".data, 7)])]).get_action
        "/test-fn".data "GET".data = .ok 7 ∧
    (RouteMap.mk [("/test-fn".data, [("GET".data, 7)])]).get_action
        "/test-fn".data "POST".data = .error ResponseCode.get_405 ∧
    (RouteMap.mk [("/test-fn".data, [("GET".data, 7)])]).get_action
        "/nonexistent".data "GET".data = .error ResponseCode.get_404 := by
  refine ⟨?_, ?_, ?_⟩
  · exact (C3_get_action _ _ _).1 7 (by decide)
  · exact (C3_get_action _ _ _).2.1
      ⟨[("GET".data, 7)], by decide, by decide⟩ (by decide)
  · exact (C3_get_action _ _ _).2.2 (by decide)

/-- C4: the claim is false — registering a uri with an empty method
vector is observable: `get_action` then fails with 405 for every method,
not with the 404 an unregistered uri produces. -/
theorem C4_empty_methods_counterexample :
    (RouteMap.insert_route_methods ⟨[]⟩ "/e".data [] 7).get_action
        "/e".data "GET".data = .error ResponseCode.get_405 ∧
    (RouteMap.mk ([] : List (Str × List (Str × Nat)))).get_action
        "/e".data "GET".data = .error ResponseCode.get_404 ∧
    ResponseCode.get_405 ≠ ResponseCode.get_404 := by
  decide

theorem alistGet_insert_self {α : Type} (k : Str) (v : α)
    (m : List (Str × α)) : alistGet k (alistInsert k v m) = some v := by
  induction m with
  | nil => simp [alistInsert, alistGet]
  | cons p rest ih =>
    obtain ⟨k', v'⟩ := p
    by_cases h : k' = k
    · simp [alistInsert, h, alistGet]
    · simp [alistInsert, h, alistGet, ih]

theorem alistInsert_get_self {α : Type} (k : Str) (v : α)
    (m : List (Str × α)) (h : alistGet k m = some v) :
    alistInsert k v m = m := by
  induction m with
  | nil => simp [alistGet] at h
  | cons p rest ih =>
    obtain ⟨k', v'⟩ := p
    by_cases hk : k' = k
    · rw [alistGet, if_pos hk] at h
      obtain rfl : v' = v := by injection h
      simp [alistInsert, hk]
    · rw [alistGet, if_neg hk] at h
      simp [alistInsert, hk, ih h]

theorem alistInsert_insert_same {α : Type} (k : Str) (v1 v2 : α)
    (m : List (Str × α)) :
    alistInsert k v2 (alistInsert k v1 m) = alistInsert k v2 m := by
  induction m with
  | nil => simp [alistInsert]
  | cons p rest ih =>
    obtain ⟨k', v'⟩ := p
    by_cases h : k' = k
    · simp [alistInsert, h]
    · simp [alistInsert, h, ih]

theorem foldl_insert_route {α : Type} (uri : Str) (hd : α)
    (ms : List Str) :
    ∀ (rm : RouteMap α) (mm : List (Str × α)),
      alistGet uri rm.map = some mm →
      List.foldl (fun r mth => r.insert_route uri mth hd) rm ms =
        ⟨alistInsert uri
          (List.foldl (fun m mth => alistInsert mth hd m) mm ms) rm.map⟩ := by
  induction ms with
  | nil =>
    intro rm mm hget
    simp [alistInsert_get_self uri mm rm.map hget]
  | cons m0 ms ih =>
    intro rm mm hget
    rw [List.foldl_cons, List.foldl_cons]
    have hstep : rm.insert_route uri m0 hd =
        ⟨alistInsert uri (alistInsert m0 hd mm) rm.map⟩ := by
      unfold RouteMap.insert_route RouteMap.with_method_map
      rw [hget]
      rfl
    rw [hstep]
    rw [ih ⟨alistInsert uri (alistInsert m0 hd mm) rm.map⟩
      (alistInsert m0 hd mm) (alistGet_insert_self uri _ rm.map)]
    simp [alistInsert_insert_same]

/-- C4 (amended): after `insert_route_methods(uri, [], handler)` on a map
where `uri` was unregistered, `get_action(uri, m)` fails with 405 for
every method `m` — an empty registered-method set is distinguishable
from an unregistered uri; `insert_route_methods` with a nonempty method
list remains equivalent to one `insert_route` per method in order. -/
theorem C4_insert_route_methods_amended {α : Type} (rm : RouteMap α)
    (uri : Str) (hd : α) :
    (alistGet uri rm.map = none →
      ∀ m, (rm.insert_route_methods uri [] hd).get_action uri m =
        .error ResponseCode.get_405) ∧
    (∀ methods, methods ≠ [] →
      rm.insert_route_methods uri methods hd =
        methods.foldl (fun r mth => r.insert_route uri mth hd) rm) := by
  constructor
  · intro hnone m
    unfold RouteMap.insert_route_methods RouteMap.with_method_map
    unfold RouteMap.get_action
    rw [hnone]
    simp only [Option.getD_none, List.foldl_nil]
    rw [alistGet_insert_self]
    rfl
  · intro methods hne
    match methods with
    | [] => exact absurd rfl hne
    | m0 :: ms =>
      rw [List.foldl_cons]
      have hstep : rm.insert_route uri m0 hd =
          ⟨alistInsert uri
            (alistInsert m0 hd ((alistGet uri rm.map).getD [])) rm.map⟩ := rfl
      rw [hstep]
      rw [foldl_insert_route uri hd ms _ _ (alistGet_insert_self uri _ rm.map)]
      unfold RouteMap.insert_route_methods RouteMap.with_method_map
      simp [alistInsert_insert_same]

/-- Witness for C4's amended theorem on the empty route map: an empty
method list makes the uri answer 405, and a two-method list equals the
two successive single inserts. -/
theorem C4_insert_route_methods_amended_witness :
    (RouteMap.insert_route_methods ⟨[]⟩ "/t".data [] 7).get_action
        "/t".data "GET".data = .error ResponseCode.get_405 ∧
    RouteMap.insert_route_methods (⟨[]⟩ : RouteMap Nat) "/t".data
        ["GET".data, "POST".data] 7 =
      ((⟨[]⟩ : RouteMap Nat).insert_route "/t".data "GET".data 7).insert_route
        "/t".data "POST".data 7 := by
  constructor
  · exact (C4_insert_route_methods_amended ⟨[]⟩ "/t".data 7).1
      (by decide) "GET".data
  · have h := (C4_insert_route_methods_amended (⟨[]⟩ : RouteMap Nat)
      "/t".data 7).2 ["GET".data, "POST".data] (by decide)
    rw [h]
    rfl

/-- The `\r\n` line terminator. -/
def crlf : Str := ['\r', '\n']

/-- Decimal rendering of a numeric status code (Rust's `Display` for
`usize`). -/
def natStr (n : Nat) : Str := Nat.toDigits 10 n

/-- The `Display` implementation for `ResponseCode`:
`format!("{} {}", code, reason)` (identical for the static and the
dynamic reason storage). -/
def ResponseCode.fmt (c : ResponseCode) : Str :=
  natStr c.code ++ ' ' :: c.reason

/-- Model of `StatusResponse` from `src/web/response/mod.rs`. -/
structure StatusResponse where
  version : Versions
  code : ResponseCode

/-- The `Display` implementation for `StatusResponse`:
`format!("{} {}", version, code)`; fails (propagating `fmt::Error`) when
the version fails to render. -/
def StatusResponse.fmt (s : StatusResponse) : Option Str :=
  (s.version.fmt).map (fun v => v ++ ' ' :: s.code.fmt)

/-- Model of `Response` from `src/web/response/mod.rs`. -/
structure Response where
  status_line : StatusResponse
  headers : List Header
  body : Str

/-- Model of `Response::respond`, modelled as the byte sequence the successive
`write_all` calls put on the stream: status line, `\r\n`, each header
line followed by `\r\n`, a blank `\r\n`, then the raw body.  `none`
models the panic of `to_string()` when the status line's `Display`
returns `fmt::Error` (no byte is written in that case). -/
def Response.respond (r : Response) : Option Str :=
  match r.status_line.fmt with
  | none => none
  | some st =>
    some (st ++ crlf
      ++ (r.headers.map (fun h => h.to_http_str ++ crlf)).flatten
      ++ crlf ++ r.body)

/-- Model of `Response::respond_code`: builds a `Response` with the given status
line and empty headers and body, and delegates to `respond`. -/
def Response.respond_code (version : Versions) (code : ResponseCode) :
    Option Str :=
  (Response.mk ⟨version, code⟩ [] []).respond

/-- C6: `respond` writes exactly the status line
`{version} {numeric-code} {reason}`, CRLF, each header as
`{name}: {value}` followed by CRLF in order, one blank CRLF, then the
raw body with no terminator; `respond_code` writes the same as `respond`
on a response with that status and empty headers and body. -/
theorem C6_respond (v : Versions) (vs : Str) (code : ResponseCode)
    (headers : List Header) (body : Str) (hv : v.fmt = some vs) :
    (Response.mk ⟨v, code⟩ headers body).respond =
      some (vs ++ ' ' :: natStr code.code ++ ' ' :: code.reason ++ crlf
        ++ (headers.map
              (fun h => h.name ++ ':' :: ' ' :: h.value ++ crlf)).flatten
        ++ crlf ++ body) ∧
    Response.respond_code v code = (Response.mk ⟨v, code⟩ [] []).respond := by
  constructor
  · unfold Response.respond StatusResponse.fmt
    simp [hv, ResponseCode.fmt, Header.to_http_str]
  · rfl

/-- Witness for C6: the spec's concrete example response serializes to
the exact expected byte sequence. -/
theorem C6_respond_witness :
    (Response.mk ⟨Versions.Http1_1, ResponseCode.get_200⟩
      [⟨"Content-Type".data, "text/plain".data⟩,
       ⟨"Content-Length".data, "5".data⟩]
      "Hello".data).respond =
      some ("HTTP/1.1 200 OK\r\nContent-Type: text/plain\r\n" ++
            "Content-Length: 5\r\n\r\nHello").data := by
  rw [(C6_respond Versions.Http1_1 "HTTP/1.1".data ResponseCode.get_200
    [⟨"Content-Type".data, "text/plain".data⟩,
     ⟨"Content-Length".data, "5".data⟩]
    "Hello".data rfl).1]
  decide

/-- C10: for a response whose version is Http2 or Http3 the status line
cannot be rendered (`Display` returns an error), so `respond` panics
instead of writing output; serialization is well-defined exactly when
the version is Http1_1. -/
theorem C10_versions_display (v : Versions) (code : ResponseCode)
    (headers : List Header) (body : Str) :
    (v ≠ Versions.Http1_1 → v.fmt = none ∧
      (Response.mk ⟨v, code⟩ headers body).respond = none) ∧
    (v = Versions.Http1_1 →
      ∃ out, (Response.mk ⟨v, code⟩ headers body).respond = some out) := by
  constructor
  · intro hv
    have hf : v.fmt = none := by
      cases v with
      | Http1_1 => exact absurd rfl hv
      | Http2 => rfl
      | Http3 => rfl
    refine ⟨hf, ?_⟩
    unfold Response.respond StatusResponse.fmt
    rw [hf]
    rfl
  · rintro rfl
    exact ⟨_, rfl⟩

/-- Witness for C10 at an Http2 response: `respond` produces no output,
while the same response under Http1_1 does. -/
theorem C10_versions_display_witness :
    (Response.mk ⟨Versions.Http2, ResponseCode.get_200⟩ [] []).respond
      = none ∧
    ∃ out, (Response.mk ⟨Versions.Http1_1, ResponseCode.get_200⟩
      [] []).respond = some out :=
  ⟨((C10_versions_display Versions.Http2 ResponseCode.get_200 [] []).1
      (by decide)).2,
   (C10_versions_display Versions.Http1_1 ResponseCode.get_200 [] []).2 rfl⟩

/-- One observed item of the input stream: a byte (`.ok c`) or a failure
of the underlying read (`.error ()`). -/
abbrev ByteStream := List (Except Unit Char)

/-- Strip one trailing `\r`, as `BufRead::lines` does after removing the
`\n` terminator. -/
def stripCr (line : Str) : Str :=
  if line.getLast? = some '\r' then line.dropLast else line

/-- One step of the `BufRead::lines` iterator, accumulating the current
(reversed) partial line in `acc`: `none` is end of input with no byte
read; a read failure surfaces as `some (.error ())`; otherwise the line
(with its `\r\n` or `\n` terminator removed — a final unterminated line
is returned as-is) and the unconsumed remainder of the stream. -/
def readLineAux (acc : Str) : ByteStream → Option (Except Unit (Str × ByteStream))
  | [] => if acc.isEmpty then none else some (.ok (acc.reverse, []))
  | .error _ :: _ => some (.error ())
  | .ok c :: rest =>
    if c = '\n' then some (.ok (stripCr acc.reverse, rest))
    else readLineAux (c :: acc) rest

/-- Model of `http_lines.next()` on a fresh line. -/
def readLine (s : ByteStream) : Option (Except Unit (Str × ByteStream)) :=
  readLineAux [] s

/-- Model of `Read::read_to_end`: all remaining bytes, or a failure if any read
fails before end of stream. -/
def readToEnd : ByteStream → Except Unit Str
  | [] => .ok []
  | .error _ :: _ => .error ()
  | .ok c :: rest => (readToEnd rest).map (c :: ·)

/-- Model of `RequestBackend` from `src/web/request/mod.rs` (the retained
`response_stream` handle carries no parsed data and is omitted). -/
structure RequestBackend where
  status_line : StatusRequest
  headers : List Header
  body : Str
deriving DecidableEq

/-- The header-reading loop of `RequestBackend::build`, with the lines
iterator's partial-line accumulator `lineAcc` fused in so the recursion
is structural on the stream (`buildHeaders_readLine` below recovers the
source's line-at-a-time view).  `acc` holds the headers parsed so far,
reversed.  `writeOk` abstracts whether writing the canned error response
onto the stream succeeds: on end of input before a blank line the source
returns 400 when that write succeeds and 500 when it fails; on a read
failure it ignores the write result and returns 500. -/
def buildHeaders (writeOk : Bool) :
    ByteStream → Str → List Header →
    Except ResponseCode (List Header × ByteStream)
  | [], lineAcc, _ =>
    if lineAcc.isEmpty then
      if writeOk then .error ResponseCode.get_400
      else .error ResponseCode.get_500
    else
      match Header.build lineAcc.reverse with
      | .error c => .error c
      | .ok _ =>
        if writeOk then .error ResponseCode.get_400
        else .error ResponseCode.get_500
  | .error _ :: _, _, _ => .error ResponseCode.get_500
  | .ok c :: rest, lineAcc, acc =>
    if c = '\n' then
      let line := stripCr lineAcc.reverse
      if line = [] then .ok (acc.reverse, rest)
      else
        match Header.build line with
        | .error e => .error e
        | .ok h => buildHeaders writeOk rest [] (h :: acc)
    else buildHeaders writeOk rest (c :: lineAcc) acc

/-- The header loop seen one line at a time, exactly as the source's
`for line_res in http_lines` loop reads: end of input before a blank
line is a 400 (500 when the canned write fails), a read failure is a
500, a blank line terminates with the accumulated headers and the
unconsumed remainder, and otherwise the line is parsed and pushed. -/
theorem buildHeaders_readLine (writeOk : Bool) :
    ∀ (s : ByteStream) (lineAcc : Str) (acc : List Header),
    buildHeaders writeOk s lineAcc acc =
      match readLineAux lineAcc s with
      | none =>
        if writeOk then .error ResponseCode.get_400
        else .error ResponseCode.get_500
      | some (.error _) => .error ResponseCode.get_500
      | some (.ok (line, rest)) =>
        if line = [] then .ok (acc.reverse, rest)
        else
          match Header.build line with
          | .error c => .error c
          | .ok h => buildHeaders writeOk rest [] (h :: acc) := by
  intro s
  induction s with
  | nil =>
    intro lineAcc acc
    by_cases ha : lineAcc.isEmpty
    · simp [readLineAux, buildHeaders, ha]
    · have hne : lineAcc.reverse ≠ [] := by
        intro h
        exact ha (by simpa using congrArg List.isEmpty h)
      cases hb : Header.build lineAcc.reverse with
      | error c => simp [readLineAux, buildHeaders, ha, hne, hb]
      | ok h => simp [readLineAux, buildHeaders, ha, hne, hb]
  | cons it rest ih =>
    intro lineAcc acc
    match it with
    | .error e => rfl
    | .ok c =>
      rw [readLineAux, buildHeaders]
      by_cases hc : c = '\n'
      · rw [if_pos hc, if_pos hc]
      · rw [if_neg hc, if_neg hc, ih]

/-- Model of `RequestBackend::build`: read and parse the status line, run the
header loop, then read the rest of the stream as the body.  `writeOk`
abstracts whether the canned error responses written on failure succeed
(the source returns 500 instead of 400 when the canned 400 write fails,
and ignores the write result where it already returns 500). -/
def RequestBackend.build (s : ByteStream) (writeOk : Bool) :
    Except ResponseCode RequestBackend :=
  match readLine s with
  | none =>
    if writeOk then .error ResponseCode.get_400
    else .error ResponseCode.get_500
  | some (.error _) => .error ResponseCode.get_500
  | some (.ok (status_str, rest)) =>
    match StatusRequest.build status_str with
    | .error c => .error c
    | .ok status_line =>
      match buildHeaders writeOk rest [] [] with
      | .error c => .error c
      | .ok (headers, rest2) =>
        match readToEnd rest2 with
        | .error _ => .error ResponseCode.get_500
        | .ok body => .ok ⟨status_line, headers, body⟩

/-- A pure byte stream: every read succeeds. -/
def toStream (s : Str) : ByteStream := s.map .ok

theorem readToEnd_toStream (s : Str) : readToEnd (toStream s) = .ok s := by
  induction s with
  | nil => rfl
  | cons c rest ih => simp [toStream, readToEnd] at ih ⊢; rw [ih]; rfl

theorem readLineAux_toStream_crlf (l : Str) :
    '\n' ∉ l → ∀ (acc rest : Str),
    readLineAux acc (toStream (l ++ '\r' :: '\n' :: rest)) =
      some (.ok (acc.reverse ++ l, toStream rest)) := by
  induction l with
  | nil =>
    intro _ acc rest
    show readLineAux acc (.ok '\r' :: .ok '\n' :: toStream rest) = _
    rw [readLineAux, if_neg (by decide), readLineAux, if_pos rfl]
    simp [stripCr]
  | cons c l ih =>
    intro hnl acc rest
    have hc : c ≠ '\n' := fun h => hnl (h ▸ List.mem_cons_self c l)
    show readLineAux acc (.ok c :: toStream (l ++ '\r' :: '\n' :: rest)) = _
    rw [readLineAux, if_neg hc,
      ih (fun h => hnl (List.mem_cons_of_mem c h)) (c :: acc) rest]
    simp

theorem readLine_toStream_crlf (l : Str) (hnl : '\n' ∉ l) (rest : Str) :
    readLine (toStream (l ++ '\r' :: '\n' :: rest)) =
      some (.ok (l, toStream rest)) := by
  rw [readLine, readLineAux_toStream_crlf l hnl [] rest]
  simp

theorem header_build_nil : Header.build [] = .error ResponseCode.get_400 := by
  decide

/-- The shape of the unread stream while the header loop runs: zero or
more valid nonempty header lines, then a position satisfying `P`. -/
inductive HeaderPhase (P : ByteStream → Prop) : ByteStream → Prop
  | base : ∀ (s : ByteStream), P s → HeaderPhase P s
  | step : ∀ (s : ByteStream) (l : Str) (rest : ByteStream) (h : Header),
      readLine s = some (.ok (l, rest)) → l ≠ [] →
      Header.build l = .ok h → HeaderPhase P rest → HeaderPhase P s

theorem buildHeaders_phase_error {P : ByteStream → Prop} {writeOk : Bool}
    {e : ResponseCode}
    (hbase : ∀ s, P s → ∀ acc, buildHeaders writeOk s [] acc = .error e) :
    ∀ s, HeaderPhase P s → ∀ acc, buildHeaders writeOk s [] acc = .error e := by
  intro s hp
  induction hp with
  | base s hP => exact hbase s hP
  | step s l rest h hrl hne hh _ ih =>
    intro acc
    have hrl' : readLineAux [] s = some (.ok (l, rest)) := hrl
    rw [buildHeaders_readLine]
    simp only [hrl']
    rw [if_neg hne]
    simp only [hh]
    exact ih (h :: acc)

theorem buildHeaders_phase_ok {P : ByteStream → Prop} {writeOk : Bool}
    {Q : ByteStream → Prop}
    (hbase : ∀ s, P s → ∃ rest, readLine s = some (.ok ([], rest)) ∧ Q rest) :
    ∀ s, HeaderPhase P s → ∀ acc, ∃ hs rest2,
      buildHeaders writeOk s [] acc = .ok (hs, rest2) ∧ Q rest2 := by
  intro s hp
  induction hp with
  | base s hP =>
    intro acc
    obtain ⟨rest, hrl, hQ⟩ := hbase s hP
    have hrl' : readLineAux [] s = some (.ok ([], rest)) := hrl
    refine ⟨acc.reverse, rest, ?_, hQ⟩
    rw [buildHeaders_readLine]
    simp only [hrl']
    rfl
  | step s l rest h hrl hne hh _ ih =>
    intro acc
    obtain ⟨hs, rest2, hbh, hQ⟩ := ih (h :: acc)
    have hrl' : readLineAux [] s = some (.ok (l, rest)) := hrl
    refine ⟨hs, rest2, ?_, hQ⟩
    rw [buildHeaders_readLine]
    simp only [hrl']
    rw [if_neg hne]
    simp only [hh]
    exact hbh

theorem buildHeaders_wellformed (writeOk : Bool) (hls : List Str)
    (hs : List Header)
    (hfa : List.Forall₂ (fun l h => '\n' ∉ l ∧ Header.build l = .ok h) hls hs)
    (body : Str) :
    ∀ acc, buildHeaders writeOk
      (toStream ((hls.map (fun l => l ++ ['\r', '\n'])).flatten
        ++ '\r' :: '\n' :: body)) [] acc =
      .ok (acc.reverse ++ hs, toStream body) := by
  induction hfa with
  | nil =>
    intro acc
    have h0 : readLineAux []
        (toStream (([] : Str) ++ '\r' :: '\n' :: body)) =
        some (.ok ([], toStream body)) :=
      readLineAux_toStream_crlf [] (by simp) [] body
    simp only [List.map_nil, List.flatten_nil, List.nil_append] at h0 ⊢
    rw [buildHeaders_readLine]
    simp only [h0]
    simp
  | @cons l h ls hts hlh _ ih =>
    intro acc
    obtain ⟨hnl, hhb⟩ := hlh
    have hne : l ≠ [] := by
      intro h0
      rw [h0, header_build_nil] at hhb
      cases hhb
    have hstream :
        ((l ++ ['\r', '\n']) :: ls.map (fun l => l ++ ['\r', '\n'])).flatten
          ++ '\r' :: '\n' :: body =
        l ++ '\r' :: '\n' ::
          ((ls.map (fun l => l ++ ['\r', '\n'])).flatten
            ++ '\r' :: '\n' :: body) := by
      simp [List.flatten_cons, List.append_assoc]
    rw [List.map_cons, hstream]
    have hrl : readLineAux [] (toStream (l ++ '\r' :: '\n' ::
        ((ls.map (fun l => l ++ ['\r', '\n'])).flatten
          ++ '\r' :: '\n' :: body))) =
        some (.ok (l, toStream
          ((ls.map (fun l => l ++ ['\r', '\n'])).flatten
            ++ '\r' :: '\n' :: body))) := by
      have := readLineAux_toStream_crlf l hnl []
        ((ls.map (fun l => l ++ ['\r', '\n'])).flatten
          ++ '\r' :: '\n' :: body)
      simpa using this
    rw [buildHeaders_readLine]
    simp only [hrl]
    rw [if_neg hne]
    simp only [hhb]
    rw [ih (h :: acc)]
    simp

/-- C8: a stream made of a valid status line, well-formed header lines,
a blank line, then arbitrary remaining bytes builds successfully
(whether or not canned writes would succeed), with the headers in input
order, duplicates preserved, and the body exactly the bytes after the
blank line. -/
theorem C8_build_success (writeOk : Bool) (sl : Str) (st : StatusRequest)
    (hls : List Str) (hs : List Header) (body : Str)
    (hsl : '\n' ∉ sl) (hst : StatusRequest.build sl = .ok st)
    (hfa : List.Forall₂
      (fun l h => '\n' ∉ l ∧ Header.build l = .ok h) hls hs) :
    RequestBackend.build
      (toStream (sl ++ '\r' :: '\n' ::
        ((hls.map (fun l => l ++ ['\r', '\n'])).flatten
          ++ '\r' :: '\n' :: body)))
      writeOk = .ok ⟨st, hs, body⟩ := by
  unfold RequestBackend.build
  rw [readLine_toStream_crlf sl hsl _]
  simp only [hst]
  rw [buildHeaders_wellformed writeOk hls hs hfa body []]
  simp [readToEnd_toStream]

/-- Witness for C8 at the spec's concrete request stream. -/
theorem C8_build_success_witness :
    RequestBackend.build (toStream
      ("GET /test HTTP/1.1\r\nHost: www.example.com\r\n" ++
       "Accept-Language: en\r\n\r\n\x7b\"meow\": 1\x7d").data) true =
      .ok ⟨⟨"GET".data, "/test".data, Versions.Http1_1⟩,
           [⟨"Host".data, "www.example.com".data⟩,
            ⟨"Accept-Language".data, "en".data⟩],
           "\x7b\"meow\": 1\x7d".data⟩ := by
  have henc :
      ("GET /test HTTP/1.1\r\nHost: www.example.com\r\n" ++
       "Accept-Language: en\r\n\r\n\x7b\"meow\": 1\x7d").data =
      "GET /test HTTP/1.1".data ++ '\r' :: '\n' ::
        ((["Host: www.example.com".data, "Accept-Language: en".data].map
          (fun l => l ++ ['\r', '\n'])).flatten
          ++ '\r' :: '\n' :: "\x7b\"meow\": 1\x7d".data) := by
    decide
  rw [henc]
  exact C8_build_success true "GET /test HTTP/1.1".data
    ⟨"GET".data, "/test".data, Versions.Http1_1⟩
    ["Host: www.example.com".data, "Accept-Language: en".data]
    [⟨"Host".data, "www.example.com".data⟩,
     ⟨"Accept-Language".data, "en".data⟩]
    "\x7b\"meow\": 1\x7d".data (by decide) (by decide)
    (.cons ⟨by decide, by decide⟩ (.cons ⟨by decide, by decide⟩ .nil))

/-- C2: the claim fails at the empty stream when writing the canned 400
response fails: the build then returns 500, not the 400 the claim
states unconditionally. -/
theorem C2_build_counterexample :
    RequestBackend.build [] false = .error ResponseCode.get_500 ∧
    (.error ResponseCode.get_500 :
      Except ResponseCode RequestBackend) ≠ .error ResponseCode.get_400 := by
  decide

/-- C2 (amended): immediate end of input fails with 400 when the canned
write succeeds and 500 when it fails; a failed read of the status line,
a header line or the body fails with 500; end of input before a blank
line terminates the headers fails with 400 when the canned write
succeeds and 500 when it fails; failure codes from status-line or
header parsing are propagated unchanged. -/
theorem C2_build_failures_amended (writeOk : Bool) :
    (RequestBackend.build [] writeOk =
      .error (if writeOk then ResponseCode.get_400
              else ResponseCode.get_500)) ∧
    (∀ e rest, RequestBackend.build (.error e :: rest) writeOk =
      .error ResponseCode.get_500) ∧
    (∀ s sl rest c, readLine s = some (.ok (sl, rest)) →
      StatusRequest.build sl = .error c →
      RequestBackend.build s writeOk = .error c) ∧
    (∀ s sl rest st, readLine s = some (.ok (sl, rest)) →
      StatusRequest.build sl = .ok st →
      HeaderPhase (fun s2 => readLine s2 = none) rest →
      RequestBackend.build s writeOk =
        .error (if writeOk then ResponseCode.get_400
                else ResponseCode.get_500)) ∧
    (∀ s sl rest st, readLine s = some (.ok (sl, rest)) →
      StatusRequest.build sl = .ok st →
      HeaderPhase (fun s2 => ∃ e, readLine s2 = some (.error e)) rest →
      RequestBackend.build s writeOk = .error ResponseCode.get_500) ∧
    (∀ s sl rest st c, readLine s = some (.ok (sl, rest)) →
      StatusRequest.build sl = .ok st →
      HeaderPhase (fun s2 => ∃ l r2, readLine s2 = some (.ok (l, r2)) ∧
        l ≠ [] ∧ Header.build l = .error c) rest →
      RequestBackend.build s writeOk = .error c) ∧
    (∀ s sl rest st, readLine s = some (.ok (sl, rest)) →
      StatusRequest.build sl = .ok st →
      HeaderPhase (fun s2 => ∃ r2 e, readLine s2 = some (.ok ([], r2)) ∧
        readToEnd r2 = .error e) rest →
      RequestBackend.build s writeOk = .error ResponseCode.get_500) := by
  refine ⟨?_, ?_, ?_, ?_, ?_, ?_, ?_⟩
  · cases writeOk <;> rfl
  · intro e rest
    rfl
  · intro s sl rest c hrl hsb
    unfold RequestBackend.build
    rw [hrl]
    simp only [hsb]
  · intro s sl rest st hrl hsb hphase
    unfold RequestBackend.build
    rw [hrl]
    simp only [hsb]
    have hbase : ∀ s2, readLine s2 = none → ∀ acc,
        buildHeaders writeOk s2 [] acc =
          .error (if writeOk then ResponseCode.get_400
                  else ResponseCode.get_500) := by
      intro s2 hP acc
      have hP' : readLineAux [] s2 = none := hP
      rw [buildHeaders_readLine]
      simp only [hP']
      cases writeOk <;> simp
    have hbh := buildHeaders_phase_error hbase rest hphase []
    rw [hbh]
  · intro s sl rest st hrl hsb hphase
    unfold RequestBackend.build
    rw [hrl]
    simp only [hsb]
    have hbase : ∀ s2, (∃ e, readLine s2 = some (.error e)) → ∀ acc,
        buildHeaders writeOk s2 [] acc = .error ResponseCode.get_500 := by
      intro s2 hP acc
      obtain ⟨e, he⟩ := hP
      have he' : readLineAux [] s2 = some (.error e) := he
      rw [buildHeaders_readLine]
      simp only [he']
    have hbh := buildHeaders_phase_error hbase rest hphase []
    rw [hbh]
  · intro s sl rest st c hrl hsb hphase
    unfold RequestBackend.build
    rw [hrl]
    simp only [hsb]
    have hbase : ∀ s2, (∃ l r2, readLine s2 = some (.ok (l, r2)) ∧
        l ≠ [] ∧ Header.build l = .error c) → ∀ acc,
        buildHeaders writeOk s2 [] acc = .error c := by
      intro s2 hP acc
      obtain ⟨l, r2, he, hne, hb⟩ := hP
      have he' : readLineAux [] s2 = some (.ok (l, r2)) := he
      rw [buildHeaders_readLine]
      simp only [he']
      rw [if_neg hne]
      simp only [hb]
    have hbh := buildHeaders_phase_error hbase rest hphase []
    rw [hbh]
  · intro s sl rest st hrl hsb hphase
    unfold RequestBackend.build
    rw [hrl]
    simp only [hsb]
    have hbase : ∀ s2, (∃ r2 e, readLine s2 = some (.ok ([], r2)) ∧
        readToEnd r2 = .error e) →
        ∃ rest2, readLine s2 = some (.ok ([], rest2)) ∧
          ∃ e, readToEnd rest2 = .error e := by
      intro s2 hP
      obtain ⟨r2, e, he, hre⟩ := hP
      exact ⟨r2, he, e, hre⟩
    obtain ⟨hs, rest2, hbh, e, hre⟩ :=
      buildHeaders_phase_ok hbase rest hphase []
    rw [hbh]
    simp only [hre]

/-- Witness for C2's amended theorem: a status line with too few tokens
propagates its 400, and the repo test's truncated request (headers never
terminated, canned write succeeding) fails with 400. -/
theorem C2_build_failures_amended_witness :
    RequestBackend.build (toStream "NOT-HTTP\r\n".data) true =
      .error ResponseCode.get_400 ∧
    RequestBackend.build
      (toStream "GET /test HTTP/1.1\r\nHost: ww".data) true =
      .error ResponseCode.get_400 := by
  constructor
  · exact (C2_build_failures_amended true).2.2.1
      (toStream "NOT-HTTP\r\n".data) "NOT-HTTP".data []
      ResponseCode.get_400 (by decide) (by decide)
  · have h := (C2_build_failures_amended true).2.2.2.1
      (toStream "GET /test HTTP/1.1\r\nHost: ww".data)
      "GET /test HTTP/1.1".data (toStream "Host: ww".data)
      ⟨"GET".data, "/test".data, Versions.Http1_1⟩
      (by decide) (by decide)
      (.step _ "Host: ww".data [] ⟨"Host".data, "ww".data⟩
        (by decide) (by decide) (by decide)
        (.base [] (by decide)))
    simpa using h

/-- C7: the claim fails — at a protocol-level 400 site (here: immediate
end of input) the code returns 400 when the canned response write
succeeds but 500 when that write fails, so the returned code does
depend on the canned write's outcome. -/
theorem C7_write_failure_counterexample :
    RequestBackend.build [] true = .error ResponseCode.get_400 ∧
    RequestBackend.build [] false = .error ResponseCode.get_500 ∧
    ResponseCode.get_400 ≠ ResponseCode.get_500 := by
  decide

theorem buildHeaders_writeOk_cases :
    ∀ (s : ByteStream) (lineAcc : Str) (acc : List Header),
    buildHeaders true s lineAcc acc = buildHeaders false s lineAcc acc ∨
    (buildHeaders true s lineAcc acc = .error ResponseCode.get_400 ∧
     buildHeaders false s lineAcc acc = .error ResponseCode.get_500) := by
  intro s
  induction s with
  | nil =>
    intro lineAcc acc
    by_cases ha : lineAcc.isEmpty
    · right
      constructor <;> simp [buildHeaders, ha]
    · cases hb : Header.build lineAcc.reverse with
      | error c =>
        left
        simp [buildHeaders, ha, hb]
      | ok h =>
        right
        constructor <;> simp [buildHeaders, ha, hb]
  | cons it rest ih =>
    intro lineAcc acc
    match it with
    | .error e => left; rfl
    | .ok c =>
      by_cases hc : c = '\n'
      · subst hc
        by_cases hl : stripCr lineAcc.reverse = []
        · left
          simp [buildHeaders, hl]
        · cases hb : Header.build (stripCr lineAcc.reverse) with
          | error c2 =>
            left
            simp [buildHeaders, hl, hb]
          | ok h =>
            rcases ih [] (h :: acc) with h1 | ⟨h1, h2⟩
            · left
              simp [buildHeaders, hl, hb, h1]
            · right
              constructor <;> simp [buildHeaders, hl, hb, h1, h2]
      · rcases ih (c :: lineAcc) acc with h1 | ⟨h1, h2⟩
        · left
          simp [buildHeaders, hc, h1]
        · right
          constructor <;> simp [buildHeaders, hc, h1, h2]

/-- C7 (amended): for every stream, the code returned by the build is
independent of whether the canned error responses can be written —
except at the two protocol-level 400 sites (immediate end of input and
headers never terminated), where a failure of the canned write
escalates the returned code from 400 to 500.  At the 500 sites the
canned write's failure is indeed swallowed. -/
theorem C7_build_write_dependence (s : ByteStream) :
    RequestBackend.build s true = RequestBackend.build s false ∨
    (RequestBackend.build s true = .error ResponseCode.get_400 ∧
     RequestBackend.build s false = .error ResponseCode.get_500) := by
  unfold RequestBackend.build
  cases hrl : readLine s with
  | none =>
    right
    constructor <;> simp [hrl]
  | some r =>
    cases r with
    | error e =>
      left
      simp [hrl]
    | ok p =>
      obtain ⟨sl, rest⟩ := p
      cases hsb : StatusRequest.build sl with
      | error c =>
        left
        simp [hrl, hsb]
      | ok st =>
        rcases buildHeaders_writeOk_cases rest [] [] with h1 | ⟨h1, h2⟩
        · left
          simp [hrl, hsb, h1]
        · right
          constructor <;> simp [hrl, hsb, h1, h2]

end Rns

